import Mathlib

/-!
Verification development for the routify repository: a shallow embedding of
the point-optimization and coverage-verification pipeline
(`osm_utils.py`, `routing.py`, `utils.py`) together with theorems settling
the behavioural claims about it.

Conventions of the embedding:
* Python floats are modelled as exact rationals (`ℚ`); Python ints as `ℤ`/`ℕ`.
* A value that may be a string or a list of strings (pandas cell of the
  `highway` / `maxspeed` columns) is the inductive `StrOrList`.
* A raised Python exception is modelled as `Except`/`Option` failure.
* External collaborators (shapely geometry, osmnx network download, the
  polyline codec, the HTTP transport, CRS reprojection) enter as explicit
  function parameters; everything written in the repository itself is
  translated directly.
-/

namespace Routify

/-- A pandas cell that is either a scalar string or a list of strings,
as in the `highway` and `maxspeed` columns of the edges frame. -/
inductive StrOrList
  | str (s : String)
  | list (l : List String)
  deriving DecidableEq, Repr

/-- The fixed highway ranking from `osm_utils.py`, most important first. -/
def highway_priority : List String :=
  ["motorway", "trunk", "primary", "secondary", "tertiary",
   "unclassified", "residential", "living_street", "road",
   "motorway_link", "trunk_link", "primary_link", "secondary_link",
   "tertiary_link", "rest_area", "crossing"]

/-- Embedding of `select_highway_type` (`osm_utils.py`): on a list input,
scan `highway_priority` in order and return the first ranked category the
list contains; if none is found, or the input is a scalar, return the input
unchanged. -/
def select_highway_type : StrOrList → StrOrList
  | .list l =>
    match highway_priority.find? (fun h => l.contains h) with
    | some h => .str h
    | none => .list l
  | .str s => .str s

/-- Numeric value of a decimal digit character, `none` otherwise. -/
def digitVal (c : Char) : Option ℕ :=
  if c.isDigit then some (c.toNat - 48) else none

/-- Parse a non-empty run of decimal digits as a natural number. -/
def parseNatDigits : List Char → Option ℕ
  | [] => none
  | cs =>
    cs.foldl
      (fun acc c =>
        match acc, digitVal c with
        | some n, some d => some (10 * n + d)
        | _, _ => none)
      (some 0)

/-- Model of Python's builtin `float(x)` restricted to plain decimal string
literals: optional sign, then digits with at most one decimal point and at
least one digit overall.  `none` models the `ValueError` that `float`
raises on an unparsable string.  (Scientific notation, `inf`/`nan` and
surrounding whitespace are outside the fragment the repository feeds it.) -/
def pyFloat (s : String) : Option ℚ :=
  let cs := s.toList
  let signed : Bool × List Char :=
    match cs with
    | '-' :: rest => (true, rest)
    | '+' :: rest => (false, rest)
    | rest => (false, rest)
  let neg := signed.1
  let rest := signed.2
  let intPart := rest.takeWhile (· ≠ '.')
  let fracPart := (rest.dropWhile (· ≠ '.')).drop 1
  if intPart = [] ∧ fracPart = [] then none
  else if fracPart.contains '.' then none
  else
    let ip : Option ℕ := if intPart = [] then some 0 else parseNatDigits intPart
    let fp : Option ℕ := if fracPart = [] then some 0 else parseNatDigits fracPart
    match ip, fp with
    | some i, some f =>
      let numerator : ℤ := (i * 10 ^ fracPart.length + f : ℕ)
      some (Rat.divInt (if neg then -numerator else numerator) ((10 : ℤ) ^ fracPart.length))
    | _, _ => none

/-- Running maximum of Python's `max(value, key=float)`: walk the tail
keeping the current maximum (Python keeps the earlier element unless a
strictly greater key appears); fail if any key fails to parse. -/
def pyMaxFloatAux : String × ℚ → List String → Option String
  | (acc, _), [] => some acc
  | (acc, accV), x :: xs =>
    match pyFloat x with
    | none => none
    | some v => pyMaxFloatAux (if accV < v then (x, v) else (acc, accV)) xs

/-- Embedding of `select_max_value` (`osm_utils.py`): on a list input,
Python's `max(value, key=lambda x: float(x))`; on a scalar, the input
unchanged.  `none` models the `ValueError` raised either by `float` on an
unparsable candidate or by `max` on an empty list. -/
def select_max_value : StrOrList → Option StrOrList
  | .list [] => none
  | .list (x :: xs) =>
    match pyFloat x with
    | none => none
    | some v => (pyMaxFloatAux (x, v) xs).map .str
  | .str s => some (.str s)

/-- Model of `pd.to_numeric` on one cell: parse a scalar string as a
number; a list cell cannot be coerced. -/
def to_numeric_cell : StrOrList → Option ℚ
  | .str s => pyFloat s
  | .list _ => none

/-- The `maxspeed` part of `filter_data` (`osm_utils.py` lines 92–95):
apply `select_max_value` to every cell of the column, then coerce the
column to numeric with `pd.to_numeric`.  `none` models the exception that
aborts `filter_data` when a cell is unparsable. -/
def filter_maxspeed (col : List StrOrList) : Option (List ℚ) := do
  let col2 ← col.mapM select_max_value
  col2.mapM to_numeric_cell

/-! ## Geometry simplification (`simplify_linestring`) -/

/-- A shapely `LineString` as the repository reads it: its coordinate
sequence (`list(linestring.coords)`, each coordinate an `(x, y)` pair) and
its planar `length` in the native unit of its frame. -/
structure LineStringM where
  coords : List (ℚ × ℚ)
  length : ℚ
  deriving DecidableEq, Repr

/-- Exact-arithmetic model of `np.linspace(0, stop, num, dtype=int)`:
`num` evenly spaced rational positions from `0` to `stop`, each truncated
to an integer (`astype(int)` truncates toward zero; all positions here are
non-negative, so truncation is the floor, i.e. `ℕ` division). -/
def linspace_int (stop num : ℕ) : List ℕ :=
  if num = 1 then [0]
  else (List.range num).map (fun i => i * stop / (num - 1))

/-- Embedding of `simplify_linestring` (`osm_utils.py`).  `points_between
= none` models Python `None` (length-derived point budget); `.error`
models the `ValueError` raised for `points_between < -1`.  Out-of-range
indexing (never reached for a real `LineString`, whose coordinate list has
length at least 2) is defaulted to `(0, 0)`. -/
def simplify_linestring (linestring : LineStringM) (points_between : Option ℤ) :
    Except String (List (ℚ × ℚ)) :=
  let coords := linestring.coords
  match points_between with
  | none =>
    let num_points : ℕ := (max 3 (min 20 ((linestring.length / 1000).floor + 2))).toNat
    .ok ((linspace_int (coords.length - 1) num_points).map (fun i => coords.getD i (0, 0)))
  | some k =>
    if k < -1 then .error "points_between must be non-negative or -1"
    else if k = -1 then .ok coords
    else if k = 0 then .ok [coords.getD 0 (0, 0), coords.getD (coords.length - 1) (0, 0)]
    else
      let num_points : ℕ := k.toNat + 2
      .ok ((linspace_int (coords.length - 1) num_points).map (fun i => coords.getD i (0, 0)))

/-- The index selection C4 describes in its own words: interpolate `num`
evenly spaced positions over index space from `0` to `stop` and round each
position to the NEAREST integer index.  Stated for comparison with
`linspace_int`, which is what the code computes. -/
def roundedIndexSelection (stop num : ℕ) : List ℕ :=
  if num = 1 then [0]
  else (List.range num).map (fun i => (round ((i * stop : ℚ) / (num - 1))).toNat)

/-! ## Nearest spatial joins and `merge_points_gdf_with_streets_edges` -/

/-- A GeoDataFrame as the repository uses it: a coordinate reference
system tag (`none` models a frame without CRS) and its rows. -/
structure GeoDF (α : Type) where
  crs : Option String
  rows : List α
  deriving DecidableEq, Repr

/-- Model of `GeoDataFrame.to_crs(target)`: retag the frame and transform
every row by the reprojection `reproj` from the current CRS to the target
(reprojection itself is an external library operation, passed in). -/
def to_crs (reproj : Option String → String → α → α) (target : String)
    (g : GeoDF α) : GeoDF α :=
  ⟨some target, g.rows.map (reproj g.crs target)⟩

/-- Nearest right-frame row to `l` under `dist`, subject to an optional
maximum distance: `none` as the cap means no cap (geopandas
`max_distance=None`).  On exact distance ties the earliest right-frame row
is kept — a deterministic stand-in for the library's tie handling, which no
claim exercises. -/
def nearestWithin (dist : L → P → ℚ) (cap : Option ℚ) (rights : List P) (l : L) :
    Option P :=
  match rights with
  | [] => none
  | p :: ps =>
    let best := List.foldl (fun acc q => if dist l q < dist l acc then q else acc) p ps
    match cap with
    | none => some best
    | some c => if dist l best ≤ c then some best else none

/-- Model of `gpd.sjoin_nearest(left, right, how="inner", max_distance=cap)`:
one row per left-frame row paired with its nearest right-frame row; left
rows with no right row within the cap are dropped. -/
def sjoin_nearest_inner (dist : L → P → ℚ) (cap : Option ℚ)
    (lefts : List L) (rights : List P) : List (L × P) :=
  lefts.filterMap (fun l => (nearestWithin dist cap rights l).map (fun p => (l, p)))

/-- Model of `gpd.sjoin_nearest(left, right, how="left", max_distance=cap)`:
every left-frame row is retained; the match component is `none` when no
right row lies within the cap (pandas `index_right` is NaN there). -/
def sjoin_nearest_left (dist : L → P → ℚ) (cap : Option ℚ)
    (lefts : List L) (rights : List P) : List (L × Option P) :=
  lefts.map (fun l => (l, nearestWithin dist cap rights l))

/-- Observable outcome of `merge_points_gdf_with_streets_edges`: the
post-call state of the caller's two frames (both were reprojected with
`to_crs(..., inplace=True)`, so the mutation is visible to the caller) and
the returned join frame. -/
structure MergeOut (S P : Type) where
  points_gdf : GeoDF P
  streets_gdf : GeoDF S
  result : GeoDF (S × P)
  deriving DecidableEq, Repr

/-- Embedding of `merge_points_gdf_with_streets_edges` (`osm_utils.py`).
Both input frames are reprojected to `join_crs` in place; the spatial join
is `sjoin_nearest(streets_gdf, points_gdf, how="inner", max_distance)` —
streets are the LEFT frame — and the joined frame is reprojected to
`output_crs`.  The embedding fixes `how` to its Python default `"inner"`,
the only mode the repository uses; the remaining Python defaults are
`join_crs="EPSG:32632"`, `output_crs="EPSG:4326"`, `max_distance=10`,
passed explicitly here.  `dist` is the planar distance between a (reprojected)
street row and point row in the join CRS; the column drops on the local
names are not modelled (columns are outside the row model). -/
def merge_points_gdf_with_streets_edges
    (reprojP : Option String → String → P → P)
    (reprojS : Option String → String → S → S)
    (reprojSP : Option String → String → S × P → S × P)
    (dist : S → P → ℚ)
    (points_gdf : GeoDF P) (streets_gdf : GeoDF S)
    (join_crs output_crs : String) (max_distance : ℚ) : MergeOut S P :=
  let points2 := to_crs reprojP join_crs points_gdf
  let streets2 := to_crs reprojS join_crs streets_gdf
  let spatial_gdf : GeoDF (S × P) :=
    ⟨some join_crs, sjoin_nearest_inner dist (some max_distance) streets2.rows points2.rows⟩
  ⟨points2, streets2, to_crs reprojSP output_crs spatial_gdf⟩

/-! ## The OSRM trip request (`routing.py`) -/

/-- One step of an OSRM route leg: its encoded sub-polyline (the `geometry`
field of the response JSON; `""` models an absent field, as in the Python
`step.get('geometry', '')`). -/
structure OsrmStep where
  geometry : String
  deriving DecidableEq, Repr

/-- One leg of an OSRM trip: its steps. -/
structure OsrmLeg where
  steps : List OsrmStep
  deriving DecidableEq, Repr

/-- One OSRM trip: its legs. -/
structure OsrmTrip where
  legs : List OsrmLeg
  deriving DecidableEq, Repr

/-- An HTTP response from the OSRM service, as `get_osrm_trip` consumes it:
status code, raw body text, and the `trips` array of the parsed JSON body
(empty when the key is absent, as in the Python `data.get('trips', [])`). -/
structure OsrmResponse where
  status_code : ℕ
  text : String
  trips : List OsrmTrip
  deriving DecidableEq, Repr

/-- The three-way return of `get_osrm_trip`: a non-empty list of decoded
route linestrings, the raw failure response, or Python `None` (no usable
route). -/
inductive OsrmTripResult (R : Type)
  | routes (rs : List R)
  | rawResponse (r : OsrmResponse)
  | noRoute
  deriving DecidableEq, Repr

/-- A decoded route segment: the linestring built from a step's decoded
polyline, as an `(x, y) = (lon, lat)` coordinate list. -/
abbrev Route := List (ℚ × ℚ)

/-- Embedding of the response processing of `get_osrm_trip` (`routing.py`).
`decode` is the external `polyline.decode`, yielding `(lat, lon)` pairs.
On status 200 every leg's every step's non-empty geometry is decoded,
degenerate decodings (fewer than 2 points) are discarded, and each kept one
becomes a linestring with coordinates swapped to `(lon, lat)`; an empty
route list becomes `noRoute` (Python `None`).  On any other status the raw
response itself is returned.  The transport-level exception handling around
`requests.get` is outside this model, which starts from a received
response. -/
def get_osrm_trip (decode : String → List (ℚ × ℚ)) (response : OsrmResponse) :
    OsrmTripResult Route :=
  if response.status_code = 200 then
    let routes : List Route :=
      response.trips.flatMap (fun trip =>
        trip.legs.flatMap (fun leg =>
          leg.steps.filterMap (fun step =>
            if step.geometry ≠ "" then
              let decoded_route := decode step.geometry
              if 1 < decoded_route.length then
                some (decoded_route.map (fun c => (c.2, c.1)))
              else none
            else none)))
    if routes.isEmpty then .noRoute else .routes routes
  else .rawResponse response

/-! ## The orchestrator (`calculate_trip`, `utils.py`) -/

/-- A user waypoint as shapely stores it: `(x, y) = (lon, lat)`. -/
abbrev PointQ := ℚ × ℚ

/-- Failure of `calculate_trip` by raised exception: the `ValueError` on an
empty input frame, or the `AssertionError` on a frame without a CRS. -/
inductive TripError
  | emptyInput
  | noCrs
  deriving DecidableEq, Repr

/-- A returned value of `calculate_trip`: either the bare scalar `None`
(the literal `return None` statements on the service-failure and
no-route paths) or a pair of optional frames (routes, uncovered points). -/
inductive TripReturn (R U : Type)
  | bare
  | pair (routes : Option R) (uncovered : Option U)
  deriving DecidableEq, Repr

/-- The coordinate list `calculate_trip` builds before encoding (lines
115–143 of `utils.py`): either the optimization sub-pipeline's output or
the input points swapped to `(lat, lon)`, with optional start and end
points prepended/appended.  `optimizedList` stands for the
`optimize_points` branch (buffered hull, osmnx download, `filter_data`,
`merge_points_gdf_with_streets_edges`, `convert_gdf_to_single_point_list`),
whose external collaborators make it enter as a function argument. -/
def trip_point_list (optimizedList : GeoDF PointQ → List (ℚ × ℚ))
    (gdf : GeoDF PointQ) (optimize_points : Bool)
    (start_point end_point : Option PointQ) : List (ℚ × ℚ) :=
  let pl0 := if optimize_points then optimizedList gdf
             else gdf.rows.map (fun p => (p.2, p.1))
  let pl1 := match start_point with
    | some sp => (sp.2, sp.1) :: pl0
    | none => pl0
  let pl2 := match end_point with
    | some ep => pl1 ++ [(ep.2, ep.1)]
    | none => pl1
  pl2

/-- Embedding of `calculate_trip` (`utils.py`).  External collaborators are
parameters: `optimizedList` (the optimization sub-pipeline, see
`trip_point_list`), `encode` (`polyline.encode`), `network` (the HTTP
transport, mapping the encoded polyline to the service's response),
`decode` (`polyline.decode`), and `dist3857` (the EPSG:3857 planar distance
between an input point and a route linestring, both reprojected).  The
function raises on an empty frame or a missing CRS, calls `get_osrm_trip`,
returns the bare scalar `None` when that yields the raw response or no
route, and otherwise classifies every input point through a left nearest
join against the routes with the given coverage cap (`none` models
`max_distance=None`, i.e. no cap). -/
def calculate_trip
    (optimizedList : GeoDF PointQ → List (ℚ × ℚ))
    (encode : List (ℚ × ℚ) → String)
    (network : String → OsrmResponse)
    (decode : String → List (ℚ × ℚ))
    (dist3857 : PointQ → Route → ℚ)
    (gdf : GeoDF PointQ)
    (optimize_points : Bool)
    (start_point end_point : Option PointQ)
    (max_distance : Option ℚ) :
    Except TripError (TripReturn (GeoDF Route) (GeoDF PointQ)) :=
  if gdf.rows.isEmpty then .error .emptyInput
  else if gdf.crs.isNone then .error .noCrs
  else
    let point_list := trip_point_list optimizedList gdf optimize_points start_point end_point
    match get_osrm_trip decode (network (encode point_list)) with
    | .rawResponse _ => .ok .bare
    | .noRoute => .ok .bare
    | .routes rs =>
      if rs.isEmpty then .ok .bare
      else
        let routes_gdf : GeoDF Route := ⟨some "EPSG:4326", rs⟩
        let covered_points := sjoin_nearest_left dist3857 max_distance gdf.rows rs
        let uncovered_points := (covered_points.filter (fun pr => pr.2.isNone)).map (fun pr => pr.1)
        if uncovered_points.isEmpty then .ok (.pair (some routes_gdf) none)
        else .ok (.pair (some routes_gdf) (some ⟨some "EPSG:4326", uncovered_points⟩))

/-! ## Concrete fixtures used by counterexamples and witnesses -/

deriving instance DecidableEq for Except

/-- A six-point polyline with pairwise distinct coordinates, used to
separate truncation from round-to-nearest index selection. -/
def sixPointLS : LineStringM :=
  ⟨[(0, 0), (1, 0), (2, 0), (3, 0), (4, 0), (5, 0)], 5⟩

/-- A three-point polyline used as a witness input. -/
def threePointLS : LineStringM :=
  ⟨[(0, 0), (1, 1), (2, 2)], 0⟩

/-- Points frame for the C1 counterexample: waypoint 0 at position 0 and
waypoint 1 at position 100 on a line, in the geographic frame. -/
def c1pointsGDF : GeoDF (ℕ × ℤ) := ⟨some "EPSG:4326", [(0, 0), (1, 100)]⟩

/-- Streets frame for the C1 counterexample: one street edge at
position 0. -/
def c1streetsGDF : GeoDF ℤ := ⟨some "EPSG:4326", [0]⟩

/-- One-dimensional planar distance between a street edge and an
identified waypoint, used to instantiate the abstract join distance. -/
def c1dist (s : ℤ) (p : ℕ × ℤ) : ℚ := ((p.2 - s).natAbs : ℚ)

/-- The C1 counterexample merge: both frames joined with all the Python
defaults of `merge_points_gdf_with_streets_edges` (inner join, join CRS
EPSG:32632, output CRS EPSG:4326, `max_distance = 10`), reprojection taken
as the identity on row data. -/
def c1merge : MergeOut ℤ (ℕ × ℤ) :=
  merge_points_gdf_with_streets_edges (fun _ _ p => p) (fun _ _ s => s) (fun _ _ sp => sp)
    c1dist c1pointsGDF c1streetsGDF "EPSG:32632" "EPSG:4326" 10

/-- Identity reprojection on identified waypoints, for concrete join
instances. -/
def c1idP : Option String → String → (ℕ × ℤ) → (ℕ × ℤ) := fun _ _ p => p

/-- Identity reprojection on street positions, for concrete join
instances. -/
def c1idS : Option String → String → ℤ → ℤ := fun _ _ s => s

/-- Identity reprojection on joined rows, for concrete join instances. -/
def c1idSP : Option String → String → ℤ × (ℕ × ℤ) → ℤ × (ℕ × ℤ) := fun _ _ sp => sp

/-- Points frame with a single waypoint 3 m from the street at 0, used as
a witness input for the capped nearest join. -/
def c1witnessPts : GeoDF (ℕ × ℤ) := ⟨some "EPSG:4326", [(0, 3)]⟩

/-- An empty waypoint frame (with a CRS) for the C2 counterexample. -/
def emptyPointsGDF : GeoDF PointQ := ⟨some "EPSG:4326", []⟩

/-- A one-waypoint frame used as a witness input for the orchestrator
claims. -/
def onePointGDF : GeoDF PointQ := ⟨some "EPSG:4326", [(9, 45)]⟩

/-! ## Helper lemmas -/

/-- An in-range `getD` access is a member of the list. -/
theorem getD_mem {α : Type} {c : List α} {i : ℕ} {d : α} (h : i < c.length) :
    c.getD i d ∈ c := by
  rw [List.getD_eq_getElem?_getD, List.getElem?_eq_getElem h]
  exact List.getElem_mem h

/-- Access at index 0 of a non-empty list is its head. -/
theorem getD_zero_head {α : Type} {c : List α} (d : α) (h : 0 < c.length) :
    some (c.getD 0 d) = c.head? := by
  rw [List.getD_eq_getElem?_getD, List.head?_eq_getElem?, List.getElem?_eq_getElem h]
  rfl

/-- Access at the last index of a non-empty list is its last element. -/
theorem getD_last_getLast {α : Type} {c : List α} (d : α) (h : 0 < c.length) :
    some (c.getD (c.length - 1) d) = c.getLast? := by
  have h2 : c.length - 1 < c.length := Nat.sub_lt h Nat.one_pos
  rw [List.getD_eq_getElem?_getD, List.getLast?_eq_getElem?, List.getElem?_eq_getElem h2]
  rfl

/-- The index list of `linspace_int` has exactly `num` entries. -/
theorem linspace_int_length (stop num : ℕ) : (linspace_int stop num).length = num := by
  unfold linspace_int
  by_cases h : num = 1
  · simp [h]
  · simp [h]

/-- Every index produced by `linspace_int` is at most `stop`. -/
theorem linspace_int_le (stop num : ℕ) : ∀ i ∈ linspace_int stop num, i ≤ stop := by
  intro i hi
  unfold linspace_int at hi
  by_cases h : num = 1
  · rw [if_pos h] at hi
    simp at hi
    omega
  · rw [if_neg h] at hi
    obtain ⟨j, hj, rfl⟩ := List.mem_map.mp hi
    have hjn : j < num := List.mem_range.mp hj
    calc j * stop / (num - 1) ≤ (num - 1) * stop / (num - 1) :=
          Nat.div_le_div_right (Nat.mul_le_mul_right _ (by omega))
      _ = stop := Nat.mul_div_cancel_left _ (by omega)

/-- The first index produced by `linspace_int` is 0. -/
theorem linspace_int_head (stop num : ℕ) (h : num ≠ 0) :
    (linspace_int stop num).head? = some 0 := by
  unfold linspace_int
  by_cases h1 : num = 1
  · simp [h1]
  · rw [if_neg h1]
    obtain ⟨m, rfl⟩ : ∃ m, num = m + 1 := ⟨num - 1, by omega⟩
    rw [List.range_succ_eq_map]
    simp

/-- The last index produced by `linspace_int` is `stop` when at least two
samples are requested. -/
theorem linspace_int_getLast (stop num : ℕ) (h : 2 ≤ num) :
    (linspace_int stop num).getLast? = some stop := by
  unfold linspace_int
  rw [if_neg (by omega), List.getLast?_map]
  have hr : (List.range num).getLast? = some (num - 1) := by
    rw [List.getLast?_eq_getElem?, List.length_range, List.getElem?_range (by omega)]
  rw [hr]
  simp only [Option.map_some']
  congr 1
  exact Nat.mul_div_cancel_left _ (by omega)

/-- The element `List.find?` returns has the least index among the elements
satisfying the predicate. -/
theorem find?_min_indexOf [DecidableEq α] (p : α → Bool) :
    ∀ (L : List α) (x : α), L.find? p = some x →
      ∀ y ∈ L, p y → L.indexOf x ≤ L.indexOf y := by
  intro L
  induction L with
  | nil => intro x hx; simp at hx
  | cons a t ih =>
    intro x hx y hy hpy
    rw [List.find?_cons] at hx
    by_cases hpa : p a
    · simp [hpa] at hx
      subst hx
      simp [List.indexOf_cons_self]
    · simp [hpa] at hx
      have hxa : x ≠ a := by
        intro h
        exact hpa (h ▸ List.find?_some hx)
      have hya : y ≠ a := by
        intro h
        exact hpa (h ▸ hpy)
      have hyt : y ∈ t := by
        rcases List.mem_cons.mp hy with h | h
        · exact absurd h hya
        · exact h
      rw [List.indexOf_cons_ne _ (Ne.symm hxa), List.indexOf_cons_ne _ (Ne.symm hya)]
      exact Nat.succ_le_succ (ih x hx y hyt hpy)

/-- Specification of the running maximum `pyMaxFloatAux`: when the
accumulator and every remaining candidate parse, the result is one of them
and its value dominates the accumulator and every candidate. -/
theorem pyMaxFloatAux_spec :
    ∀ (xs : List String) (acc : String) (accV : ℚ), pyFloat acc = some accV →
      (∀ s ∈ xs, (pyFloat s).isSome) →
      ∃ m mv, pyMaxFloatAux (acc, accV) xs = some m ∧ pyFloat m = some mv ∧
        (m = acc ∨ m ∈ xs) ∧ accV ≤ mv ∧
        ∀ s ∈ xs, ∀ w, pyFloat s = some w → w ≤ mv := by
  intro xs
  induction xs with
  | nil =>
    intro acc accV hacc _
    exact ⟨acc, accV, rfl, hacc, Or.inl rfl, le_refl _, by simp⟩
  | cons x t ih =>
    intro acc accV hacc hall
    obtain ⟨v, hv⟩ := Option.isSome_iff_exists.mp (hall x (by simp))
    have hallt : ∀ s ∈ t, (pyFloat s).isSome := fun s hs => hall s (by simp [hs])
    by_cases hlt : accV < v
    · obtain ⟨m, mv, hrun, hm, hmem, hle, hbound⟩ := ih x v hv hallt
      refine ⟨m, mv, ?_, hm, ?_, ?_, ?_⟩
      · simpa [pyMaxFloatAux, hv, hlt] using hrun
      · rcases hmem with h | h
        · exact Or.inr (by simp [h])
        · exact Or.inr (by simp [h])
      · exact le_of_lt (lt_of_lt_of_le hlt hle)
      · intro s hs w hw
        rcases List.mem_cons.mp hs with h | h
        · subst h
          rw [hv] at hw
          exact (Option.some_inj.mp hw) ▸ hle
        · exact hbound s h w hw
    · obtain ⟨m, mv, hrun, hm, hmem, hle, hbound⟩ := ih acc accV hacc hallt
      refine ⟨m, mv, ?_, hm, ?_, hle, ?_⟩
      · simpa [pyMaxFloatAux, hv, hlt] using hrun
      · rcases hmem with h | h
        · exact Or.inl h
        · exact Or.inr (by simp [h])
      · intro s hs w hw
        rcases List.mem_cons.mp hs with h | h
        · subst h
          rw [hv] at hw
          have : w ≤ accV := by
            have := Option.some_inj.mp hw
            subst this
            exact le_of_not_lt hlt
          exact le_trans this hle
        · exact hbound s h w hw

/-- The running-minimum fold inside `nearestWithin` returns the seed or a
list element, and its distance is minimal among them. -/
theorem foldl_nearest_spec (dist : L → P → ℚ) (l : L) :
    ∀ (ps : List P) (p : P),
      ((List.foldl (fun acc q => if dist l q < dist l acc then q else acc) p ps) = p ∨
        (List.foldl (fun acc q => if dist l q < dist l acc then q else acc) p ps) ∈ ps) ∧
      dist l (List.foldl (fun acc q => if dist l q < dist l acc then q else acc) p ps) ≤ dist l p ∧
      ∀ q ∈ ps, dist l (List.foldl (fun acc q => if dist l q < dist l acc then q else acc) p ps) ≤ dist l q := by
  intro ps
  induction ps with
  | nil => exact fun p => ⟨Or.inl rfl, le_refl _, by simp⟩
  | cons x t ih =>
    intro p
    rw [List.foldl_cons]
    obtain ⟨hmem, hle, hbound⟩ := ih (if dist l x < dist l p then x else p)
    have hseed : dist l (if dist l x < dist l p then x else p) ≤ dist l p := by
      by_cases h : dist l x < dist l p
      · rw [if_pos h]; exact le_of_lt h
      · rw [if_neg h]
    have hseedx : dist l (if dist l x < dist l p then x else p) ≤ dist l x := by
      by_cases h : dist l x < dist l p
      · rw [if_pos h]
      · rw [if_neg h]; exact le_of_not_lt h
    refine ⟨?_, le_trans hle hseed, ?_⟩
    · rcases hmem with h | h
      · by_cases hx : dist l x < dist l p
        · rw [if_pos hx] at h
          rw [if_pos hx, h]
          exact Or.inr (List.mem_cons_self x t)
        · rw [if_neg hx] at h
          rw [if_neg hx]
          exact Or.inl h
      · exact Or.inr (List.mem_cons_of_mem _ h)
    · intro q hq
      rcases List.mem_cons.mp hq with h | h
      · subst h
        exact le_trans hle hseedx
      · exact hbound q h

/-- Characterization of a successful `nearestWithin` lookup: the match is a
right-frame row, its distance to `l` is minimal, and it respects the cap
when one is given. -/
theorem nearestWithin_spec (dist : L → P → ℚ) (cap : Option ℚ) (rights : List P)
    (l : L) (p : P) (h : nearestWithin dist cap rights l = some p) :
    p ∈ rights ∧ (∀ q ∈ rights, dist l p ≤ dist l q) ∧
      ∀ c, cap = some c → dist l p ≤ c := by
  match rights with
  | [] => simp [nearestWithin] at h
  | r :: rt =>
    obtain ⟨hmem, hle, hbound⟩ := foldl_nearest_spec dist l rt r
    have hbest : p = List.foldl (fun acc q => if dist l q < dist l acc then q else acc) r rt ∧
        ∀ c, cap = some c → dist l p ≤ c := by
      match cap with
      | none =>
        simp only [nearestWithin] at h
        exact ⟨(Option.some_inj.mp h).symm, fun c hc => by simp at hc⟩
      | some c =>
        simp only [nearestWithin] at h
        by_cases hcap : dist l (List.foldl (fun acc q => if dist l q < dist l acc then q else acc) r rt) ≤ c
        · rw [if_pos hcap] at h
          have hbp : p = List.foldl (fun acc q => if dist l q < dist l acc then q else acc) r rt :=
            (Option.some_inj.mp h).symm
          refine ⟨hbp, ?_⟩
          intro c2 hc2
          have hcc : c = c2 := Option.some_inj.mp hc2
          rw [hbp, ← hcc]
          exact hcap
        · rw [if_neg hcap] at h
          simp at h
    obtain ⟨rfl, hcap⟩ := hbest
    refine ⟨?_, ?_, hcap⟩
    · rcases hmem with h2 | h2
      · rw [h2]; exact List.mem_cons_self r rt
      · exact List.mem_cons_of_mem _ h2
    · intro q hq
      rcases List.mem_cons.mp hq with h2 | h2
      · exact h2 ▸ hle
      · exact hbound q h2

/-- A response with a status other than 200 is returned raw by
`get_osrm_trip`, whatever the decoder. -/
theorem get_osrm_trip_ne_200 (decode : String → List (ℚ × ℚ)) (r : OsrmResponse)
    (h : r.status_code ≠ 200) : get_osrm_trip decode r = .rawResponse r := by
  unfold get_osrm_trip
  simp [h]

/-! ## Claims -/

/-- C5: road-class normalization.  For every list input containing at
least one recognized highway category, `select_highway_type` returns the
single category of highest priority present according to the fixed
ranking; the list `["residential", "motorway", "unclassified"]` normalizes
to `"motorway"`; a scalar input is returned unchanged. -/
theorem claim_C5 (l : List String) (hrec : ∃ x ∈ highway_priority, x ∈ l) :
    (∃ hw, select_highway_type (.list l) = .str hw ∧ hw ∈ highway_priority ∧ hw ∈ l ∧
      ∀ h2 ∈ highway_priority, h2 ∈ l →
        highway_priority.indexOf hw ≤ highway_priority.indexOf h2)
    ∧ select_highway_type (.list ["residential", "motorway", "unclassified"]) = .str "motorway"
    ∧ ∀ s, select_highway_type (.str s) = .str s := by
  refine ⟨?_, by decide, fun s => rfl⟩
  obtain ⟨x, hxp, hxl⟩ := hrec
  have hsome : (highway_priority.find? (fun h => l.contains h)).isSome := by
    rw [List.find?_isSome]
    exact ⟨x, hxp, List.elem_iff.mpr hxl⟩
  obtain ⟨hw, hfind⟩ := Option.isSome_iff_exists.mp hsome
  have hmain : select_highway_type (.list l) = .str hw := by
    simp only [select_highway_type]
    rw [hfind]
  have hp : (fun h => l.contains h) hw = true := List.find?_some hfind
  have hwl : hw ∈ l := List.elem_iff.mp hp
  refine ⟨hw, hmain, List.mem_of_find?_eq_some hfind, hwl, ?_⟩
  intro h2 hp2 hl2
  exact find?_min_indexOf _ highway_priority hw hfind h2 hp2 (List.elem_iff.mpr hl2)

/-- Witness for C5 at the list `["residential", "motorway"]`. -/
theorem claim_C5_witness :
    (∃ hw, select_highway_type (.list ["residential", "motorway"]) = .str hw ∧
      hw ∈ highway_priority ∧ hw ∈ ["residential", "motorway"] ∧
      ∀ h2 ∈ highway_priority, h2 ∈ ["residential", "motorway"] →
        highway_priority.indexOf hw ≤ highway_priority.indexOf h2)
    ∧ select_highway_type (.list ["residential", "motorway", "unclassified"]) = .str "motorway"
    ∧ ∀ s, select_highway_type (.str s) = .str s :=
  claim_C5 ["residential", "motorway"] (by decide)

/-- C10: a list input with none of the recognized highway categories is
returned by `select_highway_type` unchanged, still as a list. -/
theorem claim_C10 (l : List String) (h : ∀ x ∈ l, x ∉ highway_priority) :
    select_highway_type (.list l) = .list l := by
  have hnone : highway_priority.find? (fun hw => l.contains hw) = none := by
    rw [List.find?_eq_none]
    intro hw hmem hcon
    exact h hw (List.elem_iff.mp hcon) hmem
  simp only [select_highway_type]
  rw [hnone]

/-- Witness for C10 at the list `["footway", "path"]`. -/
theorem claim_C10_witness :
    select_highway_type (.list ["footway", "path"]) = .list ["footway", "path"] :=
  claim_C10 ["footway", "path"] (by decide)

/-- C6: speed-limit normalization.  For every non-empty list of
numeric-parsable candidates, `select_max_value` returns a candidate whose
parsed value dominates every candidate; the `maxspeed` pipeline of
`filter_data` coerces the selected value to numeric, so the candidates
`["30", "50", "20"]` normalize to the numeric value `50`; an unparsable
candidate is an error. -/
theorem claim_C6 (x : String) (xs : List String)
    (hall : ∀ s ∈ x :: xs, (pyFloat s).isSome) :
    (∃ m mv, select_max_value (.list (x :: xs)) = some (.str m) ∧ m ∈ x :: xs ∧
      pyFloat m = some mv ∧ ∀ s ∈ x :: xs, ∀ w, pyFloat s = some w → w ≤ mv)
    ∧ filter_maxspeed [.list ["30", "50", "20"]] = some [50]
    ∧ select_max_value (.list ["30", "abc"]) = none := by
  refine ⟨?_, by decide, by decide⟩
  obtain ⟨v, hv⟩ := Option.isSome_iff_exists.mp (hall x (by simp))
  obtain ⟨m, mv, hrun, hm, hmem, hle, hbound⟩ :=
    pyMaxFloatAux_spec xs x v hv (fun s hs => hall s (by simp [hs]))
  refine ⟨m, mv, ?_, ?_, hm, ?_⟩
  · simp [select_max_value, hv, hrun]
  · rcases hmem with h | h
    · simp [h]
    · simp [h]
  · intro s hs w hw
    rcases List.mem_cons.mp hs with h | h
    · subst h
      rw [hv] at hw
      exact (Option.some_inj.mp hw) ▸ hle
    · exact hbound s h w hw

/-- Witness for C6 at the candidates `["30", "50", "20"]`. -/
theorem claim_C6_witness :
    (∃ m mv, select_max_value (.list ("30" :: ["50", "20"])) = some (.str m) ∧
      m ∈ "30" :: ["50", "20"] ∧ pyFloat m = some mv ∧
      ∀ s ∈ "30" :: ["50", "20"], ∀ w, pyFloat s = some w → w ≤ mv)
    ∧ filter_maxspeed [.list ["30", "50", "20"]] = some [50]
    ∧ select_max_value (.list ["30", "abc"]) = none :=
  claim_C6 "30" ["50", "20"] (by decide)

/-- C7: `get_osrm_trip` returns the raw response object, and does not
raise, on every response whose status code is not 200, for every decoder
of step geometries. -/
theorem claim_C7 (decode : String → List (ℚ × ℚ)) (r : OsrmResponse)
    (h : r.status_code ≠ 200) : get_osrm_trip decode r = .rawResponse r :=
  get_osrm_trip_ne_200 decode r h

/-- Witness for C7 at a 500 response with body `"no route"`. -/
theorem claim_C7_witness :
    get_osrm_trip (fun _ => []) ⟨500, "no route", []⟩ =
      .rawResponse ⟨500, "no route", []⟩ :=
  claim_C7 (fun _ => []) ⟨500, "no route", []⟩ (by decide)

/-- C3: for every linestring with at least 2 coordinates and every integer
`k ≥ 0`, `simplify_linestring` succeeds with exactly `k + 2` coordinate
pairs, each occurring in the original sequence, the first returned element
being the original first coordinate and the last returned element the
original last coordinate. -/
theorem claim_C3 (ls : LineStringM) (k : ℤ) (hk : 0 ≤ k)
    (hlen : 2 ≤ ls.coords.length) :
    ∃ r, simplify_linestring ls (some k) = .ok r ∧
      r.length = k.toNat + 2 ∧
      (∀ p ∈ r, p ∈ ls.coords) ∧
      r.head? = ls.coords.head? ∧
      r.getLast? = ls.coords.getLast? := by
  have hpos : 0 < ls.coords.length := by omega
  by_cases hk0 : k = 0
  · subst hk0
    refine ⟨[ls.coords.getD 0 (0, 0), ls.coords.getD (ls.coords.length - 1) (0, 0)],
      rfl, rfl, ?_, ?_, ?_⟩
    · intro p hp
      rcases List.mem_cons.mp hp with h | h
      · exact h ▸ getD_mem hpos
      · have : p = ls.coords.getD (ls.coords.length - 1) (0, 0) := by simpa using h
        exact this ▸ getD_mem (by omega)
    · simpa using getD_zero_head (0, 0) hpos
    · simpa using getD_last_getLast (0, 0) hpos
  · have hk1 : ¬ k < -1 := by omega
    have hk2 : ¬ k = -1 := by omega
    have hnum : k.toNat + 2 ≠ 1 := by omega
    have heq : simplify_linestring ls (some k) =
        .ok ((linspace_int (ls.coords.length - 1) (k.toNat + 2)).map
          (fun i => ls.coords.getD i (0, 0))) := by
      simp only [simplify_linestring]
      rw [if_neg hk1, if_neg hk2, if_neg hk0]
    refine ⟨_, heq, ?_, ?_, ?_, ?_⟩
    · rw [List.length_map, linspace_int_length]
    · intro p hp
      obtain ⟨i, hi, rfl⟩ := List.mem_map.mp hp
      have : i ≤ ls.coords.length - 1 := linspace_int_le _ _ i hi
      exact getD_mem (by omega)
    · rw [List.head?_map, linspace_int_head _ _ (by omega)]
      simpa using getD_zero_head (0, 0) hpos
    · rw [List.getLast?_map, linspace_int_getLast _ _ (by omega)]
      simpa using getD_last_getLast (0, 0) hpos

/-- Witness for C3 at a three-point linestring and `k = 1`. -/
theorem claim_C3_witness :
    ∃ r, simplify_linestring threePointLS (some 1) = .ok r ∧
      r.length = (1 : ℤ).toNat + 2 ∧
      (∀ p ∈ r, p ∈ threePointLS.coords) ∧
      r.head? = threePointLS.coords.head? ∧
      r.getLast? = threePointLS.coords.getLast? :=
  claim_C3 threePointLS 1 (by decide) (by decide)

/-- C4 as stated is false: the interpolated index positions are truncated
(floored) by `astype(int)`, not rounded to the nearest index.  On the
six-point linestring with `k = 2` the interpolated positions are
`[0, 5/3, 10/3, 5]`; rounding to nearest selects indices `[0, 2, 3, 5]`,
but the code selects `[0, 1, 3, 5]`, so the selected coordinates differ. -/
theorem claim_C4_counterexample :
    roundedIndexSelection 5 4 = [0, 2, 3, 5] ∧
    linspace_int 5 4 = [0, 1, 3, 5] ∧
    simplify_linestring sixPointLS (some 2) = .ok [(0, 0), (1, 0), (3, 0), (5, 0)] ∧
    simplify_linestring sixPointLS (some 2) ≠
      .ok ((roundedIndexSelection 5 4).map (fun i => sixPointLS.coords.getD i (0, 0))) := by
  have h1 : roundedIndexSelection 5 4 = [0, 2, 3, 5] := by
    unfold roundedIndexSelection
    norm_num [List.range_succ, round_eq, Int.floor_eq_iff]
    all_goals omega
  refine ⟨h1, by decide, by decide, ?_⟩
  rw [h1]
  decide

/-- C4 amended: for every linestring with at least 2 coordinates and every
`k > 0`, the indices selected by `simplify_linestring` are obtained by
linear interpolation over index space from 0 to the last index into
`k + 2` evenly spaced positions, with each interpolated position TRUNCATED
(floored) to an integer index — not rounded to nearest; duplicates remain
possible for very short polylines. -/
theorem claim_C4 (ls : LineStringM) (k : ℤ) (hk : 0 < k)
    (hlen : 2 ≤ ls.coords.length) :
    simplify_linestring ls (some k) =
      .ok (((List.range (k.toNat + 2)).map
          (fun (i : ℕ) => ⌊((i : ℚ) * ((ls.coords.length : ℚ) - 1)) / ((k : ℚ) + 1)⌋₊)).map
        (fun idx => ls.coords.getD idx (0, 0))) := by
  have hk1 : ¬ k < -1 := by omega
  have hk2 : ¬ k = -1 := by omega
  have hk0 : ¬ k = 0 := by omega
  have heq : simplify_linestring ls (some k) =
      .ok ((linspace_int (ls.coords.length - 1) (k.toNat + 2)).map
        (fun i => ls.coords.getD i (0, 0))) := by
    simp only [simplify_linestring]
    rw [if_neg hk1, if_neg hk2, if_neg hk0]
  rw [heq]
  have hlin : linspace_int (ls.coords.length - 1) (k.toNat + 2) =
      (List.range (k.toNat + 2)).map
        (fun i => i * (ls.coords.length - 1) / (k.toNat + 2 - 1)) := by
    unfold linspace_int
    rw [if_neg (by omega)]
  rw [hlin, List.map_map, List.map_map]
  congr 1
  apply List.map_congr_left
  intro i _
  simp only [Function.comp_apply]
  congr 1
  have hden : k.toNat + 2 - 1 = k.toNat + 1 := rfl
  rw [hden]
  have hcast1 : ((ls.coords.length : ℚ)) - 1 = ((ls.coords.length - 1 : ℕ) : ℚ) := by
    have h1 : (1 : ℕ) ≤ ls.coords.length := by omega
    push_cast [h1]
    ring
  have hcast2 : ((k : ℚ)) + 1 = ((k.toNat + 1 : ℕ) : ℚ) := by
    have h2 : ((k.toNat : ℕ) : ℚ) = (k : ℚ) := by
      exact_mod_cast congrArg (fun z : ℤ => (z : ℚ)) (Int.toNat_of_nonneg (le_of_lt hk))
    push_cast
    rw [h2]
  rw [hcast1, hcast2]
  rw [show ((i : ℚ) * ((ls.coords.length - 1 : ℕ) : ℚ)) =
      ((i * (ls.coords.length - 1) : ℕ) : ℚ) by push_cast; ring]
  rw [Nat.floor_div_nat, Nat.floor_natCast]

/-- C1 as stated is false: `calculate_trip` calls
`merge_points_gdf_with_streets_edges` with all defaults, so the nearest
join runs with `max_distance = 10` in inner mode with streets as the left
frame.  With one street at position 0 and waypoints at positions 0 and
100, waypoint 1 (100 m from the only street) appears in no row of the join
result — it is dropped as unmatched. -/
theorem claim_C1_counterexample :
    ((1 : ℕ), (100 : ℤ)) ∈ c1pointsGDF.rows ∧
    c1merge.result.rows = [(0, (0, 0))] ∧
    ∀ sp ∈ c1merge.result.rows, sp.2 ≠ ((1 : ℕ), (100 : ℤ)) := by
  decide

/-- C1 amended: the waypoint/street nearest join of the reduction pipeline
applies the 10-meter default cap of `merge_points_gdf_with_streets_edges`,
in inner mode with streets as the left frame.  Every row of the join pairs
a street with a genuinely nearest waypoint at distance at most 10, a
waypoint farther than 10 from every street occurs in no row, and the merge
result is exactly the reprojection of that capped join. -/
theorem claim_C1 {S P : Type}
    (reprojP : Option String → String → P → P)
    (reprojS : Option String → String → S → S)
    (reprojSP : Option String → String → S × P → S × P)
    (dist : S → P → ℚ) (points_gdf : GeoDF P) (streets_gdf : GeoDF S)
    (sp : S × P)
    (hsp : sp ∈ sjoin_nearest_inner dist (some 10)
      (to_crs reprojS "EPSG:32632" streets_gdf).rows
      (to_crs reprojP "EPSG:32632" points_gdf).rows) :
    dist sp.1 sp.2 ≤ 10 ∧
    (∀ q ∈ (to_crs reprojP "EPSG:32632" points_gdf).rows, dist sp.1 sp.2 ≤ dist sp.1 q) ∧
    (∀ p ∈ (to_crs reprojP "EPSG:32632" points_gdf).rows,
      (∀ s ∈ (to_crs reprojS "EPSG:32632" streets_gdf).rows, ¬ dist s p ≤ 10) → sp.2 ≠ p) ∧
    (merge_points_gdf_with_streets_edges reprojP reprojS reprojSP dist points_gdf
        streets_gdf "EPSG:32632" "EPSG:4326" 10).result.rows =
      (sjoin_nearest_inner dist (some 10)
        (to_crs reprojS "EPSG:32632" streets_gdf).rows
        (to_crs reprojP "EPSG:32632" points_gdf).rows).map
        (reprojSP (some "EPSG:32632") "EPSG:4326") := by
  obtain ⟨l, hl, hnear⟩ := List.mem_filterMap.mp hsp
  obtain ⟨p2, hp2, hpair⟩ := Option.map_eq_some'.mp hnear
  have hsp1 : sp.1 = l := by rw [← hpair]
  have hsp2 : sp.2 = p2 := by rw [← hpair]
  obtain ⟨hmem, hmin, hcap⟩ := nearestWithin_spec dist (some 10) _ l p2 hp2
  have hd10 : dist sp.1 sp.2 ≤ 10 := by
    rw [hsp1, hsp2]
    exact hcap 10 rfl
  refine ⟨hd10, ?_, ?_, rfl⟩
  · intro q hq
    rw [hsp1, hsp2]
    exact hmin q hq
  · intro p hp hfar heq
    have : ¬ dist sp.1 sp.2 ≤ 10 := by
      rw [heq]
      apply hfar
      rw [hsp1]
      exact hl
    exact this hd10

/-- Witness for the amended C1: with one street at 0 and one waypoint at
3, the join holds the single row pairing them within the 10 m cap. -/
theorem claim_C1_witness :
    c1dist (0 : ℤ) ((0 : ℕ), (3 : ℤ)) ≤ 10 ∧
    (∀ q ∈ (to_crs c1idP "EPSG:32632" c1witnessPts).rows,
      c1dist 0 ((0 : ℕ), (3 : ℤ)) ≤ c1dist 0 q) ∧
    (∀ p ∈ (to_crs c1idP "EPSG:32632" c1witnessPts).rows,
      (∀ s ∈ (to_crs c1idS "EPSG:32632" c1streetsGDF).rows, ¬ c1dist s p ≤ 10) →
        ((0 : ℕ), (3 : ℤ)) ≠ p) ∧
    (merge_points_gdf_with_streets_edges c1idP c1idS c1idSP c1dist c1witnessPts
        c1streetsGDF "EPSG:32632" "EPSG:4326" 10).result.rows =
      (sjoin_nearest_inner c1dist (some 10)
        (to_crs c1idS "EPSG:32632" c1streetsGDF).rows
        (to_crs c1idP "EPSG:32632" c1witnessPts).rows).map
        (c1idSP (some "EPSG:32632") "EPSG:4326") :=
  claim_C1 c1idP c1idS c1idSP c1dist c1witnessPts c1streetsGDF
    ((0 : ℤ), ((0 : ℕ), (3 : ℤ))) (by decide)

/-- C8: `merge_points_gdf_with_streets_edges` reprojects both caller
frames in place to the join CRS (the Python default `EPSG:32632`), so
after the call the caller's points and streets frames carry the projected
metric frame, with every row transformed by the reprojection from its old
CRS; only the returned join result carries the output CRS (the default
`EPSG:4326`). -/
theorem claim_C8 {S P : Type}
    (reprojP : Option String → String → P → P)
    (reprojS : Option String → String → S → S)
    (reprojSP : Option String → String → S × P → S × P)
    (dist : S → P → ℚ) (points_gdf : GeoDF P) (streets_gdf : GeoDF S)
    (max_distance : ℚ) :
    (merge_points_gdf_with_streets_edges reprojP reprojS reprojSP dist points_gdf
        streets_gdf "EPSG:32632" "EPSG:4326" max_distance).points_gdf.crs = some "EPSG:32632" ∧
    (merge_points_gdf_with_streets_edges reprojP reprojS reprojSP dist points_gdf
        streets_gdf "EPSG:32632" "EPSG:4326" max_distance).points_gdf.rows =
      points_gdf.rows.map (reprojP points_gdf.crs "EPSG:32632") ∧
    (merge_points_gdf_with_streets_edges reprojP reprojS reprojSP dist points_gdf
        streets_gdf "EPSG:32632" "EPSG:4326" max_distance).streets_gdf.crs = some "EPSG:32632" ∧
    (merge_points_gdf_with_streets_edges reprojP reprojS reprojSP dist points_gdf
        streets_gdf "EPSG:32632" "EPSG:4326" max_distance).streets_gdf.rows =
      streets_gdf.rows.map (reprojS streets_gdf.crs "EPSG:32632") ∧
    (merge_points_gdf_with_streets_edges reprojP reprojS reprojSP dist points_gdf
        streets_gdf "EPSG:32632" "EPSG:4326" max_distance).result.crs = some "EPSG:4326" :=
  ⟨rfl, rfl, rfl, rfl, rfl⟩

/-- Witness for the amended C4 at a three-point linestring and `k = 1`. -/
theorem claim_C4_witness :
    simplify_linestring threePointLS (some 1) =
      .ok (((List.range ((1 : ℤ).toNat + 2)).map
          (fun (i : ℕ) => ⌊((i : ℚ) * ((threePointLS.coords.length : ℚ) - 1)) / (((1 : ℤ) : ℚ) + 1)⌋₊)).map
        (fun idx => threePointLS.coords.getD idx (0, 0))) :=
  claim_C4 threePointLS 1 (by decide) (by decide)

/-- C2 as stated is false: on the empty-input failure mode,
`calculate_trip` raises `ValueError` (here the `.error .emptyInput`
outcome) instead of returning any value — in particular it does not return
the pair `(None, None)`. -/
theorem claim_C2_counterexample :
    calculate_trip (fun _ => []) (fun _ => "") (fun _ => ⟨200, "", []⟩) (fun _ => [])
      (fun _ _ => 0) emptyPointsGDF false none none (some 10) = .error .emptyInput ∧
    (Except.error TripError.emptyInput :
        Except TripError (TripReturn (GeoDF Route) (GeoDF PointQ))) ≠
      .ok (.pair none none) :=
  ⟨rfl, by decide⟩

/-- C2 amended: the three unrecoverable failure modes of `calculate_trip`
are signalled as follows — an empty input frame raises `ValueError`
(before any network call), while a routing-service failure (non-200
response) and a no-route outcome each return the bare scalar `None`
(`return None` in the source), not the pair `(None, None)`. -/
theorem claim_C2
    (optimizedList : GeoDF PointQ → List (ℚ × ℚ))
    (encode : List (ℚ × ℚ) → String)
    (network : String → OsrmResponse)
    (decode : String → List (ℚ × ℚ))
    (dist3857 : PointQ → Route → ℚ)
    (gdf : GeoDF PointQ)
    (optimize_points : Bool)
    (start_point end_point : Option PointQ)
    (max_distance : Option ℚ) :
    (gdf.rows = [] →
      calculate_trip optimizedList encode network decode dist3857 gdf optimize_points
        start_point end_point max_distance = .error .emptyInput) ∧
    (gdf.rows ≠ [] → gdf.crs.isSome →
      (network (encode (trip_point_list optimizedList gdf optimize_points start_point
        end_point))).status_code ≠ 200 →
      calculate_trip optimizedList encode network decode dist3857 gdf optimize_points
        start_point end_point max_distance = .ok .bare) ∧
    (gdf.rows ≠ [] → gdf.crs.isSome →
      get_osrm_trip decode (network (encode (trip_point_list optimizedList gdf
        optimize_points start_point end_point))) = .noRoute →
      calculate_trip optimizedList encode network decode dist3857 gdf optimize_points
        start_point end_point max_distance = .ok .bare) := by
  refine ⟨?_, ?_, ?_⟩
  · intro h
    simp [calculate_trip, h]
  · intro h1 h2 h3
    obtain ⟨c, hc⟩ := Option.isSome_iff_exists.mp h2
    have hne : gdf.rows.isEmpty = false := by
      simp [List.isEmpty_iff, h1]
    simp only [calculate_trip, hne, hc, Bool.false_eq_true, if_false, Option.isNone_some]
    rw [get_osrm_trip_ne_200 decode _ h3]
  · intro h1 h2 h3
    obtain ⟨c, hc⟩ := Option.isSome_iff_exists.mp h2
    have hne : gdf.rows.isEmpty = false := by
      simp [List.isEmpty_iff, h1]
    simp only [calculate_trip, hne, hc, Bool.false_eq_true, if_false, Option.isNone_some]
    rw [h3]

/-- Witness for the amended C2: a one-point frame against a mock service
answering 500 with body `"no route"` yields the bare scalar `None`. -/
theorem claim_C2_witness :
    calculate_trip (fun _ => []) (fun _ => "") (fun _ => ⟨500, "no route", []⟩)
      (fun _ => []) (fun _ _ => 0) onePointGDF false none none (some 10) = .ok .bare :=
  (claim_C2 (fun _ => []) (fun _ => "") (fun _ => ⟨500, "no route", []⟩)
    (fun _ => []) (fun _ _ => 0) onePointGDF false none none (some 10)).2.1
    (by decide) (by decide) (by decide)

/-- C9: when the caller disables coverage verification by passing
`max_distance = None` and a non-empty route was obtained, the coverage
nearest join runs with no distance cap, every input point obtains a match,
and the uncovered-points component of the returned pair is `None`. -/
theorem claim_C9
    (optimizedList : GeoDF PointQ → List (ℚ × ℚ))
    (encode : List (ℚ × ℚ) → String)
    (network : String → OsrmResponse)
    (decode : String → List (ℚ × ℚ))
    (dist3857 : PointQ → Route → ℚ)
    (gdf : GeoDF PointQ)
    (optimize_points : Bool)
    (start_point end_point : Option PointQ)
    (h1 : gdf.rows ≠ []) (h2 : gdf.crs.isSome) (rs : List Route)
    (hrs : get_osrm_trip decode (network (encode (trip_point_list optimizedList gdf
      optimize_points start_point end_point))) = .routes rs)
    (hne : rs ≠ []) :
    (∀ p ∈ gdf.rows, (nearestWithin dist3857 (none : Option ℚ) rs p).isSome) ∧
    calculate_trip optimizedList encode network decode dist3857 gdf optimize_points
      start_point end_point none = .ok (.pair (some ⟨some "EPSG:4326", rs⟩) none) := by
  obtain ⟨r0, rt, rfl⟩ : ∃ r0 rt, rs = r0 :: rt := by
    cases rs with
    | nil => exact absurd rfl hne
    | cons a t => exact ⟨a, t, rfl⟩
  constructor
  · intro p hp
    simp [nearestWithin]
  · obtain ⟨c, hc⟩ := Option.isSome_iff_exists.mp h2
    have hne0 : gdf.rows.isEmpty = false := by
      simp [List.isEmpty_iff, h1]
    have hfilter : (sjoin_nearest_left dist3857 (none : Option ℚ) gdf.rows (r0 :: rt)).filter
        (fun pr => pr.2.isNone) = [] := by
      rw [List.filter_eq_nil_iff]
      intro pr hpr
      obtain ⟨p, hp, rfl⟩ := List.mem_map.mp hpr
      simp [nearestWithin]
    simp only [calculate_trip, hne0, hc, Bool.false_eq_true, if_false, Option.isNone_some]
    rw [hrs]
    simp [hfilter]

/-- Witness for C9: one point, a mock 200 response decoding to a single
two-point segment, no coverage cap — the uncovered component is `None`. -/
theorem claim_C9_witness :
    (∀ p ∈ onePointGDF.rows,
      (nearestWithin (fun (_ : PointQ) (_ : Route) => (0 : ℚ)) (none : Option ℚ)
        [[((9 : ℚ), (45 : ℚ)), (9, 46)]] p).isSome) ∧
    calculate_trip (fun _ => []) (fun _ => "")
      (fun _ => ⟨200, "", [⟨[⟨[⟨"g"⟩]⟩]⟩]⟩) (fun _ => [(45, 9), (46, 9)])
      (fun _ _ => 0) onePointGDF false none none none =
      .ok (.pair (some ⟨some "EPSG:4326", [[((9 : ℚ), (45 : ℚ)), (9, 46)]]⟩) none) :=
  claim_C9 (fun _ => []) (fun _ => "") (fun _ => ⟨200, "", [⟨[⟨[⟨"g"⟩]⟩]⟩]⟩)
    (fun _ => [(45, 9), (46, 9)]) (fun _ _ => 0) onePointGDF false none none
    (by decide) (by decide) [[((9 : ℚ), (45 : ℚ)), (9, 46)]] (by decide) (by decide)

end Routify
